import Mathlib

/-!
Shallow embedding of the HFS B-tree node-reserve subsystem
(`lf_hfs_btree_node_reserve.c`): the reservation estimator, the space
admission / extension logic of `BTReserveSpace`, the node-reserve hash
(`nr_insert`, `nr_delete`, `nr_update`) and the release path
(`BTReleaseReserve`).

Modelling conventions:
- C `int` locals (`rsrvNodes`, `availNodes`, `totalNodes`, heights, counts)
  are modelled as `Int`; unsigned 32-bit quantities (`clumpsize`, block
  counts, sizes) as `Nat`, with `% 2 ^ 32` at the one store where the C
  `u_int32_t` multiplication can wrap.
- The packed `operations` argument is a nonnegative packed value (`Nat`);
  callers build it as `inserts | (deletes << 16)`.
- External collaborators are oracles passed as arguments:
  `hfs_freeblks(hfsmp, 0)` is the field `freeBlks` of the volume state,
  `CalcMapBits(btree)` is the argument `calcMapBits`, and `ExtendBTree`'s
  return value is the argument `extendResult` (0 = success).  `ExtendBTree`'s
  own mutations of the tree are external and not modelled; the embedding
  records that the call happened (`extendCalled`), the node count passed to
  it (`extendTotalNodes`) and the clump size in effect at the call
  (`clumpAtExtend`).
- The per-thread tag `NR_GET_TAG()` (`pthread_self()`) is an explicit
  argument `tag : Nat`; tag `0` is the cleared / non-authoritative state
  written by `nrp->nr_tag = 0` and `bzero`.
- The hash table is modelled as the list of caller slots (`Nat` handles)
  currently linked into any bucket, together with the contents of every
  slot.  `NR_HASH` is deterministic in `(btvp, tag)`, so a lookup by
  `(btvp, tag)` finds a record iff some linked record has that key; the
  bucket split is irrelevant to the lookups the code performs.
-/

namespace HFS

/-- Constant `HFS_BT_MAXRESERVE`: byte cap on the B-tree safety reserve.  Modelled from
the spec: the header defining it is not part of this slice; the source comment
and spec describe it as "10MB worth of blocks". -/
def HFS_BT_MAXRESERVE : Nat := 10 * 1024 * 1024

/-- The POSIX out-of-space error code returned by the admission checks. -/
def ENOSPC : Int := 28

/-- Volume state read by `BTReserveSpace` (`struct hfsmount`); `freeBlks` is
the value returned by the external `hfs_freeblks(hfsmp, 0)`. -/
structure HFSMount where
  allocLimit : Nat
  blockSize : Nat
  freeBlks : Nat
deriving DecidableEq

/-- The fields of `BTreeControlBlock` that `BTReserveSpace` reads or writes.
`fileRefNum` is the b-tree file vnode, used as the ledger key. -/
structure BTCB where
  fileRefNum : Nat
  treeDepth : Int
  freeNodes : Int
  reservedNodes : Int
  totalNodes : Int
  nodeSize : Nat
deriving DecidableEq

/-- The fields of `FCB` used: the clump size and the b-tree control block
(`fcbBTCBPtr`). -/
structure FCB where
  ff_clumpsize : Nat
  btree : BTCB
deriving DecidableEq

/-- The record `struct nreserve` minus the intrusive hash link (the link is modelled by
membership of the slot's handle in `LedgerState.table`). -/
structure NReserve where
  nr_nodecnt : Int
  nr_newnodes : Int
  nr_btvp : Nat
  nr_tag : Nat
deriving DecidableEq

/-- Zeroed record, as left by `bzero(nrp, sizeof(struct nreserve))`. -/
def NReserve.zero : NReserve := ⟨0, 0, 0, 0⟩

/-- The node-reserve hash: contents of every caller slot, plus the list of
slots currently linked into the table. -/
structure LedgerState where
  recs : Nat → NReserve
  table : List Nat

/-- The match test of the hash-chain scans: `(tmp_nrp->nr_tag == tag) &&
(tmp_nrp->nr_btvp == btvp)`. -/
def nrMatches (r : NReserve) (btvp tag : Nat) : Bool :=
  (r.nr_tag == tag) && (r.nr_btvp == btvp)

/-- The hash-chain scan for an existing reserve keyed by `(btvp, tag)`. -/
def findMatch (s : LedgerState) (btvp tag : Nat) : Option Nat :=
  s.table.find? fun h => nrMatches (s.recs h) btvp tag

/-- Function `nr_insert`: merge into an existing record for `(btvp, tag)` (clearing the
caller's own slot tag), or initialize and link the caller's slot. -/
def nr_insert (btvp tag : Nat) (nrp : Nat) (nodecnt : Int) (s : LedgerState) :
    LedgerState :=
  match findMatch s btvp tag with
  | some h =>
      let recs1 := Function.update s.recs nrp ({ s.recs nrp with nr_tag := 0 })
      let recs2 := Function.update recs1 h
        ({ recs1 h with nr_nodecnt := (recs1 h).nr_nodecnt + nodecnt })
      { s with recs := recs2 }
  | none =>
      { recs := Function.update s.recs nrp ⟨nodecnt, 0, btvp, tag⟩,
        table := nrp :: s.table }

/-- Function `nr_delete`: if the slot's tag is set, check ownership (`hfs_assert` on
mismatch, modelled as `none`), unlink, report the reserved count and zero the
slot; if the tag is cleared, report 0 and change nothing. -/
def nr_delete (btvp tag : Nat) (nrp : Nat) (s : LedgerState) :
    Option (Int × LedgerState) :=
  if (s.recs nrp).nr_tag ≠ 0 then
    if (s.recs nrp).nr_tag ≠ tag ∨ (s.recs nrp).nr_btvp ≠ btvp then
      none
    else
      some ((s.recs nrp).nr_nodecnt,
        { recs := Function.update s.recs nrp NReserve.zero,
          table := s.table.erase nrp })
  else
    some (0, s)

/-- Function `nr_update`: best-effort accumulation of actual allocations into the
record for `(btvp, tag)`; silently does nothing when absent. -/
def nr_update (btvp tag : Nat) (nodecnt : Int) (s : LedgerState) : LedgerState :=
  match findMatch s btvp tag with
  | some h =>
      let recs1 := Function.update s.recs h
        ({ s.recs h with nr_newnodes := (s.recs h).nr_newnodes + nodecnt })
      { s with recs := recs1 }
  | none => s

/-- Extraction `inserts = operations & 0xffff`. -/
def opInserts (operations : Nat) : Nat := operations &&& 0xffff

/-- Extraction `deletes = operations >> 16`. -/
def opDeletes (operations : Nat) : Nat := operations >>> 16

/-- The node-reserve estimator of `BTReserveSpace` (lines 106–121): clamp the
height to at least 2, then
`rsrvNodes = 1 + (deletes * (height - 2)) + (inserts * (height - 1))`. -/
def btEstimate (treeDepth inserts deletes : Int) : Int :=
  let height := if treeDepth < 2 then 2 else treeDepth
  1 + deletes * (height - 2) + inserts * (height - 1)

/-- The volume safety budget in blocks:
`rsrvblks = MIN((allocLimit * 5) / 100, bt_rsrv)` with
`bt_rsrv = 1` when `blockSize > HFS_BT_MAXRESERVE`, else
`HFS_BT_MAXRESERVE / blockSize`. -/
def btRsrvblks (hfsmp : HFSMount) : Nat :=
  let rsrvblks := ((hfsmp.allocLimit * 5) / 100) % 2 ^ 32
  let bt_rsrv :=
    if hfsmp.blockSize > HFS_BT_MAXRESERVE then 1
    else HFS_BT_MAXRESERVE / hfsmp.blockSize
  min rsrvblks bt_rsrv

/-- The safety-adjusted free block count: `freeblks` after the code floors it
at 0 (`freeblks = 0` when `freeblks <= rsrvblks`, else `freeblks -= rsrvblks`). -/
def btAdjFreeblks (hfsmp : HFSMount) : Nat :=
  if hfsmp.freeBlks ≤ btRsrvblks hfsmp then 0
  else hfsmp.freeBlks - btRsrvblks hfsmp

/-- Observable outcome of one `BTReserveSpace` call. -/
structure RSResult where
  ret : Int
  admissionRefused : Bool
  extendCalled : Bool
  extendTotalNodes : Option Int
  clumpAtExtend : Option Nat
  file : FCB
  ledger : LedgerState

/-- Function `BTReserveSpace(file, operations, data)`.  `dataH = some nrp` is a non-NULL
`data` pointer (a persistent request with caller slot `nrp`); `tag` is the
calling thread's `NR_GET_TAG()`; `calcMapBits` and `extendResult` are the
oracles for the external `CalcMapBits` and `ExtendBTree`. -/
def BTReserveSpace (file : FCB) (operations : Nat) (dataH : Option Nat)
    (tag : Nat) (hfsmp : HFSMount) (calcMapBits : Int) (extendResult : Int)
    (ledger : LedgerState) : RSResult :=
  let btree := file.btree
  let clumpsize := file.ff_clumpsize
  let inserts : Int := (opInserts operations : Nat)
  let deletes : Int := (opDeletes operations : Nat)
  let rsrvNodes : Int := btEstimate btree.treeDepth inserts deletes
  let availNodes : Int := btree.freeNodes - btree.reservedNodes
  -- the `if (data)` block followed by the clump-size restore at `out:`
  let persist := fun (extended : Bool) (etn : Option Int) (cae : Option Nat) =>
    match dataH with
    | some nrp =>
        { ret := 0, admissionRefused := false, extendCalled := extended,
          extendTotalNodes := etn, clumpAtExtend := cae,
          file := { ff_clumpsize := clumpsize,
                    btree := { btree with
                               reservedNodes := btree.reservedNodes + rsrvNodes } },
          ledger := nr_insert btree.fileRefNum tag nrp rsrvNodes ledger }
    | none =>
        { ret := 0, admissionRefused := false, extendCalled := extended,
          extendTotalNodes := etn, clumpAtExtend := cae,
          file := { ff_clumpsize := clumpsize, btree := btree },
          ledger := ledger }
  if rsrvNodes > availNodes then
    -- `if (freeblks <= rsrvblks) { if (inserts > 0 && deletes == 0) return ENOSPC; freeblks = 0; } else freeblks -= rsrvblks;`
    if hfsmp.freeBlks ≤ btRsrvblks hfsmp ∧ 0 < inserts ∧ deletes = 0 then
      { ret := ENOSPC, admissionRefused := true, extendCalled := false,
        extendTotalNodes := none, clumpAtExtend := none,
        file := file, ledger := ledger }
    else
      let freeblks := btAdjFreeblks hfsmp
      let reqblks := clumpsize / hfsmp.blockSize
      let step : Option Nat :=
        if reqblks > freeblks then
          -- `reqblks = ((rsrvNodes - availNodes) * btree->nodeSize) / hfsmp->blockSize;`
          let reqblks2 := ((rsrvNodes - availNodes).toNat * btree.nodeSize) /
            hfsmp.blockSize
          if reqblks2 > freeblks ∧ 0 < inserts ∧ deletes = 0 then
            none  -- second ENOSPC return
          else
            -- `file->ff_clumpsize = freeblks * hfsmp->blockSize;`
            some ((freeblks * hfsmp.blockSize) % 2 ^ 32)
        else
          some clumpsize
      match step with
      | none =>
          { ret := ENOSPC, admissionRefused := true, extendCalled := false,
            extendTotalNodes := none, clumpAtExtend := none,
            file := file, ledger := ledger }
      | some curClump =>
          let tn0 : Int := rsrvNodes + btree.totalNodes - availNodes
          let tn : Int := if tn0 > calcMapBits then tn0 + 1 else tn0
          if extendResult ≠ 0 then
            -- `goto out`: clump size put back, nothing else mutated
            { ret := extendResult, admissionRefused := false,
              extendCalled := true, extendTotalNodes := some tn,
              clumpAtExtend := some curClump,
              file := { ff_clumpsize := clumpsize, btree := btree },
              ledger := ledger }
          else
            persist true (some tn) (some curClump)
  else
    persist false none none

/-- Function `BTReleaseReserve(file, data)`: `nr_delete`, then decrement the aggregate
`reservedNodes` when a nonzero count was freed.  Returns
`(return value, freed count, file, ledger)`; `none` is the `hfs_assert`
path inside `nr_delete`. -/
def BTReleaseReserve (file : FCB) (tag : Nat) (dataH : Nat)
    (ledger : LedgerState) : Option (Int × Int × FCB × LedgerState) :=
  match nr_delete file.btree.fileRefNum tag dataH ledger with
  | none => none
  | some (nodecnt, s) =>
      some (0, nodecnt,
        if nodecnt ≠ 0 then
          { file with btree := { file.btree with
              reservedNodes := file.btree.reservedNodes - nodecnt } }
        else file,
        s)

/-- Function `BTUpdateReserve(btreePtr, nodes)`. -/
def BTUpdateReserve (btree : BTCB) (tag : Nat) (nodes : Int)
    (s : LedgerState) : LedgerState :=
  nr_update btree.fileRefNum tag nodes s

/-- C1: for every tree height `h`, insert count `i` and delete count `d`, the
node-reserve estimate computed by `BTReserveSpace` equals
`1 + d * (max h 2 - 2) + i * (max h 2 - 1)`: heights below 2 are treated as 2
before the formula is applied. -/
theorem btEstimate_formula (h i d : Int) :
    btEstimate h i d = 1 + d * (max h 2 - 2) + i * (max h 2 - 1) := by
  simp only [btEstimate]
  rcases lt_or_le h 2 with hl | hl
  · rw [if_pos hl, max_eq_right hl.le]
  · rw [if_neg (not_lt.mpr hl), max_eq_left hl]

/-- C10: the operation counts are packed into one integer: the insert count
used by the estimator is `operations & 0xffff` (hence at most 65535) and the
delete count is `operations >> 16`, so a packed value above 65535 necessarily
carries a nonzero delete count. -/
theorem packed_operations (ops : Nat) :
    opInserts ops = ops % 65536 ∧ opDeletes ops = ops / 65536 ∧
    opInserts ops ≤ 65535 ∧ (65535 < ops → 0 < opDeletes ops) := by
  have h1 : opInserts ops = ops % 65536 := by
    have := Nat.and_pow_two_sub_one_eq_mod ops 16
    norm_num at this
    exact this
  have h2 : opDeletes ops = ops / 65536 := by
    show ops >>> 16 = ops / 65536
    rw [Nat.shiftRight_eq_div_pow]
  refine ⟨h1, h2, ?_, ?_⟩
  · rw [h1]; omega
  · intro hbig; rw [h2]; omega

/-- C10 witness at `operations = 70000`. -/
theorem packed_operations_witness :
    opInserts 70000 = 70000 % 65536 ∧ opDeletes 70000 = 70000 / 65536 ∧
    opInserts 70000 ≤ 65535 ∧ 0 < opDeletes 70000 := by
  have h := packed_operations 70000
  exact ⟨h.1, h.2.1, h.2.2.1, h.2.2.2 (by norm_num)⟩

/-- C3: on every exit path of `BTReserveSpace` (immediate proceed, `ENOSPC`
refusal, extension success, extension failure), the file's clump size on
return equals its value on entry. -/
theorem clumpsize_restored_all_paths (file : FCB) (ops : Nat)
    (dataH : Option Nat) (tag : Nat) (hfsmp : HFSMount) (cmb er : Int)
    (ledger : LedgerState) :
    (BTReserveSpace file ops dataH tag hfsmp cmb er ledger).file.ff_clumpsize =
      file.ff_clumpsize := by
  unfold BTReserveSpace
  dsimp only
  repeat' split
  all_goals rfl

/-- C9: whenever the estimate is at most `freeNodes - reservedNodes`,
`BTReserveSpace` proceeds without extension: `ExtendBTree` is not called, the
tree's total node count is unchanged, and the outcome does not depend on the
volume counters (nor on the map-bits or extend oracles, which are only
consulted on the extension path). -/
theorem proceed_without_extension (file : FCB) (ops : Nat)
    (dataH : Option Nat) (tag : Nat) (hfsmp hfsmp' : HFSMount)
    (cmb cmb' er er' : Int) (ledger : LedgerState)
    (h : btEstimate file.btree.treeDepth (opInserts ops : Nat)
      (opDeletes ops : Nat) ≤ file.btree.freeNodes - file.btree.reservedNodes) :
    (BTReserveSpace file ops dataH tag hfsmp cmb er ledger).extendCalled = false ∧
    (BTReserveSpace file ops dataH tag hfsmp cmb er ledger).file.btree.totalNodes =
      file.btree.totalNodes ∧
    BTReserveSpace file ops dataH tag hfsmp cmb er ledger =
      BTReserveSpace file ops dataH tag hfsmp' cmb' er' ledger := by
  have hn : ¬ (btEstimate file.btree.treeDepth (opInserts ops : Nat)
      (opDeletes ops : Nat) > file.btree.freeNodes - file.btree.reservedNodes) :=
    not_lt.mpr h
  unfold BTReserveSpace
  dsimp only
  rw [if_neg hn, if_neg hn]
  cases dataH <;> exact ⟨rfl, rfl, rfl⟩

/-- C9 witness: height 2, one insert, estimate 2 ≤ 5 free nodes. -/
theorem proceed_without_extension_witness :
    (BTReserveSpace ⟨4096, ⟨1, 2, 5, 0, 10, 4096⟩⟩ 1 (some 7) 5
      ⟨2000, 4096, 50⟩ 100 3 ⟨fun _ => NReserve.zero, []⟩).extendCalled = false ∧
    (BTReserveSpace ⟨4096, ⟨1, 2, 5, 0, 10, 4096⟩⟩ 1 (some 7) 5
      ⟨2000, 4096, 50⟩ 100 3 ⟨fun _ => NReserve.zero, []⟩).file.btree.totalNodes =
      (⟨4096, ⟨1, 2, 5, 0, 10, 4096⟩⟩ : FCB).btree.totalNodes ∧
    BTReserveSpace ⟨4096, ⟨1, 2, 5, 0, 10, 4096⟩⟩ 1 (some 7) 5
      ⟨2000, 4096, 50⟩ 100 3 ⟨fun _ => NReserve.zero, []⟩ =
    BTReserveSpace ⟨4096, ⟨1, 2, 5, 0, 10, 4096⟩⟩ 1 (some 7) 5
      ⟨9999, 512, 0⟩ 7 28 ⟨fun _ => NReserve.zero, []⟩ :=
  proceed_without_extension _ _ _ _ _ _ _ _ _ _ _ (by decide)

/-- C5: when the estimate exceeds the available nodes, the safety-adjusted
free block count is 0 and the batch is insert-only, `BTReserveSpace` returns
`ENOSPC` immediately: no extension is attempted, the file state (clump size
and aggregate reserved-node counter) and the ledger are unchanged. -/
theorem insert_only_out_of_space (file : FCB) (ops : Nat)
    (dataH : Option Nat) (tag : Nat) (hfsmp : HFSMount) (cmb er : Int)
    (ledger : LedgerState)
    (hexceed : file.btree.freeNodes - file.btree.reservedNodes <
      btEstimate file.btree.treeDepth (opInserts ops : Nat) (opDeletes ops : Nat))
    (hfree : btAdjFreeblks hfsmp = 0)
    (hins : 0 < opInserts ops) (hdel : opDeletes ops = 0) :
    (BTReserveSpace file ops dataH tag hfsmp cmb er ledger).ret = ENOSPC ∧
    (BTReserveSpace file ops dataH tag hfsmp cmb er ledger).admissionRefused = true ∧
    (BTReserveSpace file ops dataH tag hfsmp cmb er ledger).extendCalled = false ∧
    (BTReserveSpace file ops dataH tag hfsmp cmb er ledger).file = file ∧
    (BTReserveSpace file ops dataH tag hfsmp cmb er ledger).ledger = ledger := by
  have hfb : hfsmp.freeBlks ≤ btRsrvblks hfsmp := by
    by_contra hc
    push_neg at hc
    unfold btAdjFreeblks at hfree
    rw [if_neg (not_le.mpr hc)] at hfree
    omega
  have hcond : hfsmp.freeBlks ≤ btRsrvblks hfsmp ∧
      (0 : Int) < (opInserts ops : Nat) ∧ ((opDeletes ops : Nat) : Int) = 0 :=
    ⟨hfb, by exact_mod_cast hins, by exact_mod_cast hdel⟩
  unfold BTReserveSpace
  dsimp only
  rw [if_pos hexceed, if_pos hcond]
  exact ⟨rfl, rfl, rfl, rfl, rfl⟩

/-- C5 witness: Scenario D shape — no available nodes, adjusted free blocks 0,
3 inserts, 0 deletes. -/
theorem insert_only_out_of_space_witness :
    (BTReserveSpace ⟨4096, ⟨1, 2, 0, 0, 10, 4096⟩⟩ 3 (some 7) 5
      ⟨2000, 4096, 50⟩ 100 0 ⟨fun _ => NReserve.zero, []⟩).ret = ENOSPC ∧
    (BTReserveSpace ⟨4096, ⟨1, 2, 0, 0, 10, 4096⟩⟩ 3 (some 7) 5
      ⟨2000, 4096, 50⟩ 100 0 ⟨fun _ => NReserve.zero, []⟩).admissionRefused = true ∧
    (BTReserveSpace ⟨4096, ⟨1, 2, 0, 0, 10, 4096⟩⟩ 3 (some 7) 5
      ⟨2000, 4096, 50⟩ 100 0 ⟨fun _ => NReserve.zero, []⟩).extendCalled = false ∧
    (BTReserveSpace ⟨4096, ⟨1, 2, 0, 0, 10, 4096⟩⟩ 3 (some 7) 5
      ⟨2000, 4096, 50⟩ 100 0 ⟨fun _ => NReserve.zero, []⟩).file =
      (⟨4096, ⟨1, 2, 0, 0, 10, 4096⟩⟩ : FCB) ∧
    (BTReserveSpace ⟨4096, ⟨1, 2, 0, 0, 10, 4096⟩⟩ 3 (some 7) 5
      ⟨2000, 4096, 50⟩ 100 0 ⟨fun _ => NReserve.zero, []⟩).ledger =
      (⟨fun _ => NReserve.zero, []⟩ : LedgerState) :=
  insert_only_out_of_space _ _ _ _ _ _ _ _ (by decide) (by decide) (by decide)
    (by decide)

/-- C6: with a nonzero delete count, `BTReserveSpace` never refuses on the
free-block admission checks, no matter how low free space is; a nonzero
return can only be the external `ExtendBTree` result, from a call that was
actually made. -/
theorem deletes_never_refused (file : FCB) (ops : Nat) (dataH : Option Nat)
    (tag : Nat) (hfsmp : HFSMount) (cmb er : Int) (ledger : LedgerState)
    (hdel : 0 < opDeletes ops) :
    (BTReserveSpace file ops dataH tag hfsmp cmb er ledger).admissionRefused = false ∧
    ((BTReserveSpace file ops dataH tag hfsmp cmb er ledger).ret ≠ 0 →
      (BTReserveSpace file ops dataH tag hfsmp cmb er ledger).extendCalled = true ∧
      (BTReserveSpace file ops dataH tag hfsmp cmb er ledger).ret = er) := by
  have hd : ((opDeletes ops : Nat) : Int) ≠ 0 := by exact_mod_cast hdel.ne'
  unfold BTReserveSpace
  dsimp only
  split
  · rw [if_neg (fun hc => hd hc.2.2)]
    split
    · -- the `step = none` refusal needs `deletes = 0`, impossible here
      rename_i heq
      exfalso
      split at heq
      · split at heq
        · rename_i hc
          exact hd hc.2.2
        · exact Option.noConfusion heq
      · exact Option.noConfusion heq
    · split
      · exact ⟨rfl, fun _ => ⟨rfl, rfl⟩⟩
      · cases dataH <;> exact ⟨rfl, fun hc => absurd rfl hc⟩
  · cases dataH <;> exact ⟨rfl, fun hc => absurd rfl hc⟩

/-- C6 witness: one delete, zero free blocks on the volume, failing extend:
not an admission refusal, and the return value is the extend error. -/
theorem deletes_never_refused_witness :
    (BTReserveSpace ⟨4096, ⟨1, 2, 0, 0, 10, 4096⟩⟩ 65536 none 5
      ⟨2000, 4096, 0⟩ 100 5 ⟨fun _ => NReserve.zero, []⟩).admissionRefused = false ∧
    ((BTReserveSpace ⟨4096, ⟨1, 2, 0, 0, 10, 4096⟩⟩ 65536 none 5
      ⟨2000, 4096, 0⟩ 100 5 ⟨fun _ => NReserve.zero, []⟩).ret ≠ 0 →
      (BTReserveSpace ⟨4096, ⟨1, 2, 0, 0, 10, 4096⟩⟩ 65536 none 5
        ⟨2000, 4096, 0⟩ 100 5 ⟨fun _ => NReserve.zero, []⟩).extendCalled = true ∧
      (BTReserveSpace ⟨4096, ⟨1, 2, 0, 0, 10, 4096⟩⟩ 65536 none 5
        ⟨2000, 4096, 0⟩ 100 5 ⟨fun _ => NReserve.zero, []⟩).ret = 5) :=
  deletes_never_refused _ _ _ _ _ _ _ _ (by decide)

/-- C7: when `ExtendBTree` is reached and fails, `BTReserveSpace` returns that
error verbatim, the aggregate reserved-node counter is not incremented, no
ledger record is inserted, and the clump size is restored to its entry
value. -/
theorem extend_failure_no_commit (file : FCB) (ops : Nat) (dataH : Option Nat)
    (tag : Nat) (hfsmp : HFSMount) (cmb er : Int) (ledger : LedgerState)
    (her : er ≠ 0)
    (hext : (BTReserveSpace file ops dataH tag hfsmp cmb er ledger).extendCalled =
      true) :
    (BTReserveSpace file ops dataH tag hfsmp cmb er ledger).ret = er ∧
    (BTReserveSpace file ops dataH tag hfsmp cmb er ledger).file.btree.reservedNodes =
      file.btree.reservedNodes ∧
    (BTReserveSpace file ops dataH tag hfsmp cmb er ledger).file.ff_clumpsize =
      file.ff_clumpsize ∧
    (BTReserveSpace file ops dataH tag hfsmp cmb er ledger).ledger = ledger := by
  unfold BTReserveSpace at hext ⊢
  dsimp only at hext ⊢
  split at hext
  · split at hext
    · simp at hext
    · split at hext
      · simp at hext
      · rename_i hA hnB hstep curClump heq
        rw [if_pos hA, if_neg hnB, if_pos her]
        exact ⟨rfl, rfl, rfl, rfl⟩
  · cases dataH <;> simp at hext

/-- C7 witness: one delete, extend oracle fails with error 5: the error is
returned and nothing is committed. -/
theorem extend_failure_no_commit_witness :
    (BTReserveSpace ⟨4096, ⟨1, 2, 0, 0, 10, 4096⟩⟩ 65536 (some 7) 5
      ⟨2000, 4096, 0⟩ 100 5 ⟨fun _ => NReserve.zero, []⟩).ret = 5 ∧
    (BTReserveSpace ⟨4096, ⟨1, 2, 0, 0, 10, 4096⟩⟩ 65536 (some 7) 5
      ⟨2000, 4096, 0⟩ 100 5 ⟨fun _ => NReserve.zero, []⟩).file.btree.reservedNodes =
      (⟨4096, ⟨1, 2, 0, 0, 10, 4096⟩⟩ : FCB).btree.reservedNodes ∧
    (BTReserveSpace ⟨4096, ⟨1, 2, 0, 0, 10, 4096⟩⟩ 65536 (some 7) 5
      ⟨2000, 4096, 0⟩ 100 5 ⟨fun _ => NReserve.zero, []⟩).file.ff_clumpsize =
      (⟨4096, ⟨1, 2, 0, 0, 10, 4096⟩⟩ : FCB).ff_clumpsize ∧
    (BTReserveSpace ⟨4096, ⟨1, 2, 0, 0, 10, 4096⟩⟩ 65536 (some 7) 5
      ⟨2000, 4096, 0⟩ 100 5 ⟨fun _ => NReserve.zero, []⟩).ledger =
      (⟨fun _ => NReserve.zero, []⟩ : LedgerState) :=
  extend_failure_no_commit _ _ (some 7) _ _ _ _ _ (by decide) (by decide)

/-- C8: releasing a handle whose tag is cleared (never persistently reserved,
or merged into another owner's record) frees 0 nodes and leaves the file
(including the aggregate reserved-node counter) and the ledger unchanged;
since nothing changes, releasing the same handle again behaves identically. -/
theorem release_cleared_noop (file : FCB) (tag dataH : Nat)
    (ledger : LedgerState) (hclear : (ledger.recs dataH).nr_tag = 0) :
    BTReleaseReserve file tag dataH ledger = some (0, 0, file, ledger) := by
  unfold BTReleaseReserve nr_delete
  rw [if_neg (not_not_intro hclear)]
  simp

/-- C8 witness: release on an all-clear ledger touches nothing. -/
theorem release_cleared_noop_witness :
    BTReleaseReserve ⟨4096, ⟨1, 2, 0, 3, 10, 4096⟩⟩ 5 7
      ⟨fun _ => NReserve.zero, []⟩ =
      some (0, 0, ⟨4096, ⟨1, 2, 0, 3, 10, 4096⟩⟩,
        (⟨fun _ => NReserve.zero, []⟩ : LedgerState)) :=
  release_cleared_noop _ _ _ _ rfl

/-- C4: starting from a ledger with no record for `(t, o)`, two persistent
reservations from the same `(tree, owner)` pair with counts `c1`, `c2` merge
into the single record held by the first caller's slot `r1` (count `c1 + c2`,
no duplicate entry: any linked slot matching `(t, o)` is `r1`), and the second
caller's slot tag is cleared; releasing the authoritative record returns
`c1 + c2` exactly once, and any subsequent release of either handle returns
0. -/
theorem ledger_merge_release (t o r1 r2 : Nat) (c1 c2 : Int) (s0 : LedgerState)
    (ho : o ≠ 0) (hr : r1 ≠ r2)
    (h1 : r1 ∉ s0.table) (h2 : r2 ∉ s0.table)
    (hnone : ∀ h ∈ s0.table, nrMatches (s0.recs h) t o = false) :
    ((nr_insert t o r2 c2 (nr_insert t o r1 c1 s0)).recs r1).nr_nodecnt = c1 + c2 ∧
    ((nr_insert t o r2 c2 (nr_insert t o r1 c1 s0)).recs r2).nr_tag = 0 ∧
    (nr_insert t o r2 c2 (nr_insert t o r1 c1 s0)).table = r1 :: s0.table ∧
    (∀ h ∈ (nr_insert t o r2 c2 (nr_insert t o r1 c1 s0)).table,
      nrMatches ((nr_insert t o r2 c2 (nr_insert t o r1 c1 s0)).recs h) t o = true →
        h = r1) ∧
    ∃ s3 : LedgerState,
      nr_delete t o r1 (nr_insert t o r2 c2 (nr_insert t o r1 c1 s0)) =
        some (c1 + c2, s3) ∧
      nr_delete t o r1 s3 = some (0, s3) ∧
      nr_delete t o r2 s3 = some (0, s3) := by
  have hfm0 : findMatch s0 t o = none := by
    unfold findMatch
    apply List.find?_eq_none.mpr
    intro h hh
    simp [hnone h hh]
  have e1 : nr_insert t o r1 c1 s0 =
      ⟨Function.update s0.recs r1 ⟨c1, 0, t, o⟩, r1 :: s0.table⟩ := by
    unfold nr_insert
    rw [hfm0]
  have hfm1 : findMatch ⟨Function.update s0.recs r1 ⟨c1, 0, t, o⟩,
      r1 :: s0.table⟩ t o = some r1 := by
    unfold findMatch
    rw [List.find?_cons_of_pos _ (by simp [nrMatches, Function.update_same])]
  have e2 : nr_insert t o r2 c2 ⟨Function.update s0.recs r1 ⟨c1, 0, t, o⟩,
      r1 :: s0.table⟩ =
      ⟨Function.update (Function.update (Function.update s0.recs r1
          ⟨c1, 0, t, o⟩) r2 ({ s0.recs r2 with nr_tag := 0 })) r1
          ⟨c1 + c2, 0, t, o⟩, r1 :: s0.table⟩ := by
    unfold nr_insert
    rw [hfm1]
    dsimp only
    congr 1
    funext x
    rcases eq_or_ne x r1 with hx1 | hx1
    · subst hx1
      simp [Function.update_same, Function.update_noteq hr]
    · rcases eq_or_ne x r2 with hx2 | hx2
      · subst hx2
        simp [Function.update_same, Function.update_noteq hx1]
      · simp [Function.update_noteq hx1, Function.update_noteq hx2]
  rw [e1, e2]
  refine ⟨by simp [Function.update_same], ?_, rfl, ?_, ?_⟩
  · simp [Function.update_noteq (Ne.symm hr), Function.update_same]
  · intro h hh hm
    rcases List.mem_cons.mp hh with hh1 | hh'
    · exact hh1
    · exfalso
      have hne1 : h ≠ r1 := fun he => h1 (he ▸ hh')
      have hne2 : h ≠ r2 := fun he => h2 (he ▸ hh')
      dsimp only at hm
      rw [Function.update_noteq hne1, Function.update_noteq hne2,
        Function.update_noteq hne1] at hm
      rw [hnone h hh'] at hm
      exact Bool.false_ne_true hm
  · refine ⟨⟨Function.update (Function.update (Function.update
        (Function.update s0.recs r1 ⟨c1, 0, t, o⟩) r2
        ({ s0.recs r2 with nr_tag := 0 })) r1 ⟨c1 + c2, 0, t, o⟩) r1
        NReserve.zero, s0.table⟩, ?_, ?_, ?_⟩
    · simp [nr_delete, Function.update_same, ho, List.erase_cons_head]
    · simp [nr_delete, Function.update_same, NReserve.zero]
    · simp [nr_delete, Function.update_noteq (Ne.symm hr), Function.update_same]

/-- C4 witness: counts 4 and 6 on an empty ledger, distinct slots 10 and 11,
owner 5, tree 1 (Scenario C shape). -/
theorem ledger_merge_release_witness :
    ((nr_insert 1 5 11 6 (nr_insert 1 5 10 4 ⟨fun _ => NReserve.zero, []⟩)).recs 10).nr_nodecnt =
      4 + 6 ∧
    ((nr_insert 1 5 11 6 (nr_insert 1 5 10 4 ⟨fun _ => NReserve.zero, []⟩)).recs 11).nr_tag = 0 ∧
    (nr_insert 1 5 11 6 (nr_insert 1 5 10 4 ⟨fun _ => NReserve.zero, []⟩)).table =
      10 :: (⟨fun _ => NReserve.zero, []⟩ : LedgerState).table ∧
    (∀ h ∈ (nr_insert 1 5 11 6 (nr_insert 1 5 10 4 ⟨fun _ => NReserve.zero, []⟩)).table,
      nrMatches ((nr_insert 1 5 11 6 (nr_insert 1 5 10 4 ⟨fun _ => NReserve.zero, []⟩)).recs h)
        1 5 = true → h = 10) ∧
    ∃ s3 : LedgerState,
      nr_delete 1 5 10 (nr_insert 1 5 11 6 (nr_insert 1 5 10 4 ⟨fun _ => NReserve.zero, []⟩)) =
        some (4 + 6, s3) ∧
      nr_delete 1 5 10 s3 = some (0, s3) ∧
      nr_delete 1 5 11 s3 = some (0, s3) :=
  ledger_merge_release 1 5 10 11 4 6 ⟨fun _ => NReserve.zero, []⟩ (by decide)
    (by decide) (by simp) (by simp) (by simp)

/-- C2 counterexample: with `clumpsize = 65536`, `blockSize = 4096`,
`nodeSize = 4096`, estimate 2, available 0 and safety-adjusted free blocks 10,
the requested growth (16 blocks) exceeds the free blocks, yet the clump size
in effect at the `ExtendBTree` call is `freeblks * blockSize = 40960` bytes
(10 blocks), not the claimed shortfall
`((rsrvNodes - availNodes) * nodeSize) / blockSize = 2` blocks (8192 bytes):
the shortfall value is computed only for the refusal check. -/
theorem clump_shrink_counterexample :
    btAdjFreeblks ⟨2000, 4096, 110⟩ = 10 ∧
    (⟨65536, ⟨1, 2, 0, 0, 10, 4096⟩⟩ : FCB).ff_clumpsize / (4096 : Nat) = 16 ∧
    ((btEstimate 2 1 0 - ((0 : Int) - 0)).toNat * 4096) / 4096 = 2 ∧
    (BTReserveSpace ⟨65536, ⟨1, 2, 0, 0, 10, 4096⟩⟩ 1 none 5 ⟨2000, 4096, 110⟩
      100 0 ⟨fun _ => NReserve.zero, []⟩).extendCalled = true ∧
    (BTReserveSpace ⟨65536, ⟨1, 2, 0, 0, 10, 4096⟩⟩ 1 none 5 ⟨2000, 4096, 110⟩
      100 0 ⟨fun _ => NReserve.zero, []⟩).clumpAtExtend = some 40960 ∧
    (40960 : Nat) ≠ 2 * 4096 := by
  decide

/-- C2 amended: whenever the requested growth in blocks exceeds the
safety-adjusted free block count and the call is not refused, the clump size
used for the extension is set to `freeblks * blockSize` bytes (the entire
safety-adjusted free block count, with the `u_int32_t` store wrapping);
the shortfall value `((rsrvNodes - availNodes) * nodeSize) / blockSize` is
used only for the insert-only refusal check. -/
theorem clump_shrink_amended (file : FCB) (ops : Nat) (dataH : Option Nat)
    (tag : Nat) (hfsmp : HFSMount) (cmb er : Int) (ledger : LedgerState)
    (hA : file.btree.freeNodes - file.btree.reservedNodes <
      btEstimate file.btree.treeDepth (opInserts ops : Nat) (opDeletes ops : Nat))
    (hnB : ¬(hfsmp.freeBlks ≤ btRsrvblks hfsmp ∧
      (0 : Int) < (opInserts ops : Nat) ∧ ((opDeletes ops : Nat) : Int) = 0))
    (hC : btAdjFreeblks hfsmp < file.ff_clumpsize / hfsmp.blockSize)
    (hnD : ¬(btAdjFreeblks hfsmp <
      ((btEstimate file.btree.treeDepth (opInserts ops : Nat) (opDeletes ops : Nat) -
        (file.btree.freeNodes - file.btree.reservedNodes)).toNat *
          file.btree.nodeSize) / hfsmp.blockSize ∧
      (0 : Int) < (opInserts ops : Nat) ∧ ((opDeletes ops : Nat) : Int) = 0)) :
    (BTReserveSpace file ops dataH tag hfsmp cmb er ledger).clumpAtExtend =
      some ((btAdjFreeblks hfsmp * hfsmp.blockSize) % 2 ^ 32) := by
  unfold BTReserveSpace
  dsimp only
  rw [if_pos hA, if_neg hnB, if_pos hC, if_neg hnD]
  dsimp only
  split
  · rfl
  · cases dataH <;> rfl

/-- C2 amended claim witness at the counterexample input: the clump size used
for the extension is the full adjusted free space, 40960 bytes. -/
theorem clump_shrink_amended_witness :
    (BTReserveSpace ⟨65536, ⟨1, 2, 0, 0, 10, 4096⟩⟩ 1 none 5 ⟨2000, 4096, 110⟩
      100 0 ⟨fun _ => NReserve.zero, []⟩).clumpAtExtend =
      some ((btAdjFreeblks ⟨2000, 4096, 110⟩ * (4096 : Nat)) % 2 ^ 32) :=
  clump_shrink_amended _ _ _ _ _ _ _ _ (by decide) (by decide) (by decide)
    (by decide)

end HFS
